import Mathlib

/-!
Verification of the progress-bar SVG service (src/main.rs).

Modelling conventions:
* Rust `f32` values are embedded as `F32`: a rational for finite values
  (f32 values are a finite subset of the rationals), plus the IEEE special
  values `inf`, `neginf` and `nan`.  Comparison and division follow IEEE
  semantics: any comparison involving `nan` is false, division by zero of a
  nonzero finite value yields a signed infinity, `0/0` yields `nan`, and
  division of finite values by a nonzero divisor rounds the exact quotient
  to the binary32 grid with round-to-nearest, ties-to-even (`roundF32`),
  including the subnormal exponent clamp at 2^(-126) and overflow to
  infinity at 2^128.  The threshold literals 0.3 and 0.7 of the source are
  f32 literals; their exact values 5033165/2^24 and 11744051/2^24 are used.
* Rust `i32` widths are embedded as `Int` (the widths occurring in the
  derivation stay far from the 32-bit boundary for any realistic query).
* The `serde_json` object built by `extract_template_fields` is embedded as
  an association list with insert-or-replace semantics (`setField`); only
  key membership and the stored values matter to the specification.
-/

/-- Embedding of Rust `f32`: exact rationals plus IEEE special values. -/
inductive F32 where
  | fin : ℚ → F32
  | inf : F32
  | neginf : F32
  | nan : F32
deriving DecidableEq

/-- Round-to-nearest with ties to even: the integer nearest to `x`, the
even one at an exact half-way point. -/
def roundHalfEven (x : ℚ) : ℤ :=
  let f := ⌊x⌋
  let r := x - f
  if r < 1 / 2 then f
  else if 1 / 2 < r then f + 1
  else if f % 2 = 0 then f else f + 1

/-- Round a positive rational to the IEEE binary32 grid: significands are
multiples of 2^(e-23) on the binade [2^e, 2^(e+1)), the exponent is clamped
at -126 for subnormals, and results reaching 2^128 overflow to infinity. -/
def roundF32Pos (m : ℚ) : F32 :=
  let e : ℤ := max (Int.log 2 m) (-126)
  let n : ℤ := roundHalfEven (m * 2 ^ (23 - e))
  let v : ℚ := (n : ℚ) * 2 ^ (e - 23)
  if (2 : ℚ) ^ (128 : ℤ) ≤ v then F32.inf else F32.fin v

/-- Round a rational to the nearest f32 value (round-to-nearest,
ties-to-even), by sign symmetry of the rounding. -/
def roundF32 (q : ℚ) : F32 :=
  if q = 0 then F32.fin 0
  else if 0 < q then roundF32Pos q
  else
    match roundF32Pos (-q) with
    | F32.fin v => F32.fin (-v)
    | _ => F32.neginf

/-- IEEE division on the embedded floats: any `nan` operand yields `nan`,
`inf/inf` combinations yield `nan`, division of a nonzero finite value by
zero yields a signed infinity, `0/0` yields `nan`, and division of finite
values by a nonzero divisor rounds the exact quotient to binary32. -/
def fdiv : F32 → F32 → F32
  | F32.nan, _ => F32.nan
  | _, F32.nan => F32.nan
  | F32.inf, F32.inf => F32.nan
  | F32.inf, F32.neginf => F32.nan
  | F32.neginf, F32.inf => F32.nan
  | F32.neginf, F32.neginf => F32.nan
  | F32.inf, F32.fin s => if 0 ≤ s then F32.inf else F32.neginf
  | F32.neginf, F32.fin s => if 0 ≤ s then F32.neginf else F32.inf
  | F32.fin _, F32.inf => F32.fin 0
  | F32.fin _, F32.neginf => F32.fin 0
  | F32.fin p, F32.fin s =>
      if s = 0 then
        if 0 < p then F32.inf
        else if p < 0 then F32.neginf
        else F32.nan
      else roundF32 (p / s)

/-- IEEE strict less-than on the embedded floats: false whenever `nan` is
involved, otherwise the order with `neginf` below every finite value and
`inf` above. -/
def flt : F32 → F32 → Bool
  | F32.nan, _ => false
  | _, F32.nan => false
  | F32.neginf, F32.neginf => false
  | F32.neginf, _ => true
  | F32.inf, _ => false
  | F32.fin _, F32.inf => true
  | F32.fin _, F32.neginf => false
  | F32.fin a, F32.fin b => decide (a < b)

/-- Exact value of the f32 literal 0.3 of the source: the f32 nearest to
3/10 is 5033165 * 2^(-24) = 0.30000001192... -/
def f32_lit_03 : ℚ := 5033165 / 2 ^ 24

/-- Exact value of the f32 literal 0.7 of the source: the f32 nearest to
7/10 is 11744051 * 2^(-24) = 0.69999998808... -/
def f32_lit_07 : ℚ := 11744051 / 2 ^ 24

/-- Embedding of `get_progress_color` (src/main.rs lines 145-155):
`ratio = progress / scale` with f32 division; below the f32 literal 0.3
the red hue, below the f32 literal 0.7 the amber hue, otherwise the green
hue. -/
def get_progress_color (progress scale : F32) : String :=
  let ratio := fdiv progress scale
  if flt ratio (F32.fin f32_lit_03) then "#d9534f"
  else if flt ratio (F32.fin f32_lit_07) then "#f0ad4e"
  else "#5cb85c"

/-- Scalar values stored in the render context (the `serde_json` value tree
uses strings, integers and floats here). -/
inductive JsonVal where
  | str : String → JsonVal
  | int : Int → JsonVal
  | num : F32 → JsonVal
deriving DecidableEq

/-- Embedding of the `QueryArgs` struct (src/main.rs lines 77-87): all
fields optional except the required numeric `progress`. -/
structure QueryArgs where
  title : Option String
  title_width : Option Int
  title_color : Option String
  scale : Option F32
  progress : F32
  progress_width : Option Int
  progress_color : Option String
  suffix : Option String
deriving DecidableEq

/-- The render context: an association list from field names to scalar
values, mirroring the mutable `serde_json` object in the source. -/
def RenderContext : Type := List (String × JsonVal)

/-- Insert-or-replace on the association list, mirroring assignment of
`args[key] = v` into the `serde_json` object. -/
def setField : RenderContext → String → JsonVal → RenderContext
  | [], k, v => [(k, v)]
  | (k₀, v₀) :: rest, k, v =>
      if k₀ = k then (k, v) :: rest else (k₀, v₀) :: setField rest k v

/-- Field lookup in the render context. -/
def lookupField : RenderContext → String → Option JsonVal
  | [], _ => none
  | (k₀, v₀) :: rest, k => if k₀ = k then some v₀ else lookupField rest k

/-- Embedding of `extract_template_fields` (src/main.rs lines 157-183).
Every assignment of the source is reproduced in order, including the
redundant early `title_width` assignment (lines 168-170) that the later
unconditional assignment (line 174) overwrites with the same value.
Rust `title.len()` is the UTF-8 byte length of the title. -/
def extract_template_fields (query : QueryArgs) : RenderContext :=
  let args : RenderContext := []
  let progress_width : Int := 90
  let title_width : Int := 0
  let st :=
    match query.title with
    | some title =>
        (setField args ("title") (JsonVal.str title), (60 : Int),
          10 + 6 * (title.utf8ByteSize : Int))
    | none => (args, progress_width, title_width)
  let args := st.1
  let progress_width := st.2.1
  let title_width := st.2.2
  let args :=
    match query.title_width with
    | some width => setField args ("title_width") (JsonVal.int width)
    | none => args
  let scale := query.scale.getD (F32.fin 100)
  let args := setField args ("title_color")
    (JsonVal.str (query.title_color.getD ("#428bca")))
  let args := setField args ("title_width")
    (JsonVal.int (query.title_width.getD title_width))
  let args := setField args ("scale") (JsonVal.num scale)
  let args := setField args ("progress") (JsonVal.num query.progress)
  let args := setField args ("progress_width")
    (JsonVal.int (query.progress_width.getD progress_width))
  let args := setField args ("progress_color")
    (JsonVal.str (query.progress_color.getD
      (get_progress_color query.progress scale)))
  let args := setField args ("suffix")
    (JsonVal.str (query.suffix.getD ("%")))
  args

/-- Parameter lookup in a raw query (the decoded key-value pairs of the
request's query string). -/
def queryParam : List (String × String) → String → Option String
  | [], _ => none
  | (k₀, v₀) :: rest, k => if k₀ = k then some v₀ else queryParam rest k

/-- Strip an optional leading sign; `true` means negative. -/
def splitSign : List Char → Bool × List Char
  | '-' :: rest => (true, rest)
  | '+' :: rest => (false, rest)
  | cs => (false, cs)

/-- Value of a nonempty all-digit character run, `none` otherwise. -/
def digitsVal (cs : List Char) : Option Nat :=
  if cs.isEmpty then none
  else if cs.all Char.isDigit then
    some (cs.foldl (fun n c => 10 * n + (c.toNat - 48)) 0)
  else none

/-- Modelled from the spec: the numeric syntax accepted for a float query
parameter (the deserialization itself is performed by the serde/actix-web
query extractor, which is not part of src). A float literal is an optional
sign, a digit run, and an optional fractional digit run; anything else is
non-numeric and fails validation. -/
def parseF32 (s : String) : Option F32 :=
  let sg := splitSign s.data
  match sg.2.splitOn '.' with
  | [ip] => (digitsVal ip).map
      (fun n => F32.fin (if sg.1 then -(n : ℚ) else (n : ℚ)))
  | [ip, fp] =>
      match digitsVal ip, digitsVal fp with
      | some n, some f =>
          some (F32.fin
            (if sg.1 then -((n : ℚ) + (f : ℚ) / 10 ^ fp.length)
             else (n : ℚ) + (f : ℚ) / 10 ^ fp.length))
      | _, _ => none
  | _ => none

/-- Modelled from the spec: the numeric syntax accepted for an integer
query parameter — an optional sign and a digit run. -/
def parseI32 (s : String) : Option Int :=
  let sg := splitSign s.data
  (digitsVal sg.2).map (fun n => if sg.1 then -(n : Int) else (n : Int))

/-- Parse an optional float field: absent is fine, present must be numeric. -/
def parseOptNum (raw : List (String × String)) (key : String) :
    Except String (Option F32) :=
  match queryParam raw key with
  | none => Except.ok none
  | some s =>
      match parseF32 s with
      | some v => Except.ok (some v)
      | none => Except.error key

/-- Parse an optional integer field: absent is fine, present must be numeric. -/
def parseOptInt (raw : List (String × String)) (key : String) :
    Except String (Option Int) :=
  match queryParam raw key with
  | none => Except.ok none
  | some s =>
      match parseI32 s with
      | some v => Except.ok (some v)
      | none => Except.error key

/-- Modelled from the spec: deserialization of the query string into
`QueryArgs` (done by the serde/actix-web extractor outside src).
`progress` is required and numeric; the optional numeric fields must be
numeric when present; string fields pass through; unknown keys are
ignored. -/
def parseQuery (raw : List (String × String)) : Except String QueryArgs :=
  match queryParam raw ("progress") with
  | none => Except.error ("progress")
  | some ps =>
      match parseF32 ps with
      | none => Except.error ("progress")
      | some p =>
          match parseOptInt raw ("title_width") with
          | Except.error e => Except.error e
          | Except.ok tw =>
              match parseOptNum raw ("scale") with
              | Except.error e => Except.error e
              | Except.ok sc =>
                  match parseOptInt raw ("progress_width") with
                  | Except.error e => Except.error e
                  | Except.ok pw =>
                      Except.ok ⟨queryParam raw ("title"), tw,
                        queryParam raw ("title_color"), sc, p, pw,
                        queryParam raw ("progress_color"),
                        queryParam raw ("suffix")⟩

/-- Status and content type of an HTTP response. -/
structure HttpReply where
  status : Nat
  contentType : String
deriving DecidableEq

/-- The request pipeline's response, as far as the claims need it: a
validation failure is answered with status 400 and a plain-text diagnostic
(modelled from the spec: the extractor's error response is produced by
actix-web outside src); on successful parsing the handler renders the
derived context and answers 200 with the SVG content type (the template
file itself is not under src; the handler's 500 template-lookup branch and
its 400 render-failure branch are not modelled, no claim depends on them). -/
def serve (raw : List (String × String)) : HttpReply :=
  match parseQuery raw with
  | Except.error _ => ⟨400, "text/plain; charset=utf-8"⟩
  | Except.ok _ => ⟨200, "image/svg+xml; charset=utf-8"⟩

/-- Lower bound of Rust `i32`. -/
def i32_min : Int := -2147483648

/-- Upper bound of Rust `i32`. -/
def i32_max : Int := 2147483647

/-- Truncation of a rational toward zero: T-division of the numerator by
the denominator. -/
def rat_trunc (q : ℚ) : Int := q.num.tdiv (q.den : Int)

/-- Embedding of the registered filter closure `|x: f32| x as i32`
(src/main.rs line 58). Rust `as` casts from `f32` to `i32` by truncating
toward zero, saturating at the `i32` bounds, and mapping NaN to 0. -/
def f32_as_i32 : F32 → Int
  | F32.fin q => max i32_min (min i32_max (rat_trunc q))
  | F32.inf => i32_max
  | F32.neginf => i32_min
  | F32.nan => 0

/-- The filter table registered on the template environment (src/main.rs
line 58): exactly one entry, named int. -/
def template_filters : List (String × (F32 → Int)) := [(("int"), f32_as_i32)]

/-- Helper: an integer at distance less than one half from `x` is its
round-to-nearest value (half-way points cannot occur under these strict
bounds). -/
theorem roundHalfEven_eq_of (x : ℚ) (n : ℤ)
    (h1 : (n : ℚ) - 1 / 2 < x) (h2 : x < (n : ℚ) + 1 / 2) :
    roundHalfEven x = n := by
  rcases le_or_lt (n : ℚ) x with h | h
  · have hf : ⌊x⌋ = n := Int.floor_eq_iff.mpr ⟨h, by linarith⟩
    simp only [roundHalfEven, hf]
    rw [if_pos (by linarith)]
  · have hf : ⌊x⌋ = n - 1 := by
      refine Int.floor_eq_iff.mpr ⟨by push_cast; linarith, by push_cast; linarith⟩
    simp only [roundHalfEven, hf]
    rw [if_neg (by push_cast; linarith), if_pos (by push_cast; linarith)]
    omega

/-- Helper: the binary32 rounding of a positive rational, given its binade
`[2^e, 2^(e+1))` above the subnormal range and its round-to-nearest
significand `n` on the grid of that binade. -/
theorem roundF32Pos_eq (m : ℚ) (e n : ℤ)
    (he1 : (2 : ℚ) ^ e ≤ m) (he2 : m < (2 : ℚ) ^ (e + 1))
    (hemin : (-126 : ℤ) ≤ e)
    (hn1 : (n : ℚ) - 1 / 2 < m * 2 ^ (23 - e))
    (hn2 : m * 2 ^ (23 - e) < (n : ℚ) + 1 / 2)
    (hv : (n : ℚ) * 2 ^ (e - 23) < (2 : ℚ) ^ (128 : ℤ)) :
    roundF32Pos m = F32.fin ((n : ℚ) * 2 ^ (e - 23)) := by
  have hm : 0 < m := lt_of_lt_of_le (by positivity) he1
  have hlog : Int.log 2 m = e := by
    have hle : e ≤ Int.log 2 m :=
      (Int.zpow_le_iff_le_log (by norm_num) hm).mp (by exact_mod_cast he1)
    have hlt : Int.log 2 m < e + 1 :=
      (Int.lt_zpow_iff_log_lt (by norm_num) hm).mp (by exact_mod_cast he2)
    omega
  simp only [roundF32Pos, hlog, max_eq_left hemin,
    roundHalfEven_eq_of (m * 2 ^ (23 - e)) n hn1 hn2]
  rw [if_neg (not_le.mpr hv)]

/-- Helper: f32 division of finite values with a nonzero divisor is the
binary32 rounding of the exact quotient. -/
theorem fdiv_fin_of_ne (p s : ℚ) (hs : s ≠ 0) :
    fdiv (F32.fin p) (F32.fin s) = roundF32 (p / s) := by
  simp [fdiv, hs]

/-- Counterexample for C1 as stated: progress 2609791 and scale 3728273 are
integers below 2^24, hence exact f32 values, and their exact ratio
0.69999997... lies in [0.3, 0.7), so the claim predicts the amber mid-band
color; IEEE rounding of the f32 quotient yields exactly the f32 literal
0.7, the comparison ratio < 0.7 is false, and the program returns the
green high-band color. -/
theorem threshold_law_exact_cex :
    (3 / 10 : ℚ) ≤ 2609791 / 3728273 ∧
    (2609791 / 3728273 : ℚ) < 7 / 10 ∧
    get_progress_color (F32.fin 2609791) (F32.fin 3728273) = "#5cb85c" := by
  have hfd : fdiv (F32.fin 2609791) (F32.fin 3728273) = F32.fin f32_lit_07 := by
    rw [fdiv_fin_of_ne 2609791 3728273 (by norm_num)]
    have h1 : roundF32Pos ((2609791 : ℚ) / 3728273)
        = F32.fin ((11744051 : ℚ) * 2 ^ ((-1 : ℤ) - 23)) :=
      roundF32Pos_eq ((2609791 : ℚ) / 3728273) (-1) 11744051
        (by norm_num) (by norm_num) (by norm_num)
        (by norm_num) (by norm_num) (by norm_num)
    simp only [roundF32]
    rw [if_neg (by norm_num), if_pos (by norm_num), h1]
    norm_num [f32_lit_07]
  have hA : ¬(f32_lit_07 < f32_lit_03) := by norm_num [f32_lit_03, f32_lit_07]
  have hB : ¬(f32_lit_07 < f32_lit_07) := lt_irrefl _
  exact ⟨by norm_num, by norm_num,
    by simp [get_progress_color, hfd, flt, hA, hB]⟩

/-- Claim C1 (amended): for every progress and every scale > 0, the band is
selected by the computed ratio, the IEEE-rounded f32 quotient r of
progress by scale, compared against the f32 values of the literals 0.3 and
0.7: the red low-band color when r is below the f32 literal 0.3, the amber
mid-band color when r lies in the half-open interval from the f32 literal
0.3 up to the f32 literal 0.7, and the green high-band color when r is at
least the f32 literal 0.7; both boundaries fall into the higher band. -/
theorem threshold_law_f32 (p s r : ℚ) (hs : 0 < s)
    (hr : fdiv (F32.fin p) (F32.fin s) = F32.fin r) :
    (r < f32_lit_03 → get_progress_color (F32.fin p) (F32.fin s) = "#d9534f") ∧
    (f32_lit_03 ≤ r → r < f32_lit_07 →
      get_progress_color (F32.fin p) (F32.fin s) = "#f0ad4e") ∧
    (f32_lit_07 ≤ r → get_progress_color (F32.fin p) (F32.fin s) = "#5cb85c") := by
  refine ⟨fun h => ?_, fun h₁ h₂ => ?_, fun h => ?_⟩
  · simp [get_progress_color, hr, flt, h]
  · simp [get_progress_color, hr, flt, h₂, not_lt.mpr h₁]
  · have h₃ : f32_lit_03 ≤ r :=
      le_trans (by norm_num [f32_lit_03, f32_lit_07]) h
    simp [get_progress_color, hr, flt, not_lt.mpr h, not_lt.mpr h₃]

/-- Witness for C1 (amended): progress 1 and scale 2 divide exactly to the
representable value one half, which lies in the amber mid band. -/
theorem threshold_law_f32_witness :
    (0 : ℚ) < 2 ∧ fdiv (F32.fin 1) (F32.fin 2) = F32.fin (1 / 2) ∧
    get_progress_color (F32.fin 1) (F32.fin 2) = "#f0ad4e" := by
  have hdiv : fdiv (F32.fin 1) (F32.fin 2) = F32.fin (1 / 2) := by
    rw [fdiv_fin_of_ne 1 2 (by norm_num)]
    have h1 : roundF32Pos ((1 : ℚ) / 2)
        = F32.fin ((8388608 : ℚ) * 2 ^ ((-1 : ℤ) - 23)) :=
      roundF32Pos_eq ((1 : ℚ) / 2) (-1) 8388608
        (by norm_num) (by norm_num) (by norm_num)
        (by norm_num) (by norm_num) (by norm_num)
    simp only [roundF32]
    rw [if_neg (by norm_num), if_pos (by norm_num), h1]
    norm_num
  exact ⟨by norm_num, hdiv,
    (threshold_law_f32 1 2 (1 / 2) (by norm_num) hdiv).2.1
      (by norm_num [f32_lit_03]) (by norm_num [f32_lit_07])⟩

/-- Counterexample for C2 as stated: the title is the single character
letter e with acute accent, whose character length is 1, so the claim
predicts title_width 16; the code uses the UTF-8 byte length 2 of the Rust
string and derives 22. -/
theorem title_sizing_charlen_cex :
    lookupField
      (extract_template_fields
        ⟨some ("é"), none, none, none, F32.fin 50, none, none, none⟩)
      ("title_width") = some (JsonVal.int 22) ∧
    (22 : Int) ≠ 10 + 6 * (String.length ("é") : Int) := by
  refine ⟨?_, ?_⟩ <;> decide

/-- Claim C2 (amended): for every request supplying a title and neither
title_width nor progress_width, the derived title_width is 10 plus 6 times
the UTF-8 byte length of the title, and the derived progress_width is 60. -/
theorem title_sizing_bytes (t : String) (tc : Option String) (sc : Option F32)
    (p : F32) (pc sf : Option String) :
    lookupField (extract_template_fields ⟨some t, none, tc, sc, p, none, pc, sf⟩)
      ("title_width") = some (JsonVal.int (10 + 6 * (t.utf8ByteSize : Int))) ∧
    lookupField (extract_template_fields ⟨some t, none, tc, sc, p, none, pc, sf⟩)
      ("progress_width") = some (JsonVal.int 60) :=
  ⟨rfl, rfl⟩

/-- Claim C3: whichever of title_color, title_width, progress_width,
progress_color or suffix the query supplies explicitly, the derived context
holds exactly the supplied value, whatever the other fields are; in
particular an explicit progress_color suppresses the color policy. -/
theorem override_law :
    (∀ (t : Option String) (tw : Option Int) (c : String) (sc : Option F32)
      (p : F32) (pw : Option Int) (pc sf : Option String),
      lookupField (extract_template_fields ⟨t, tw, some c, sc, p, pw, pc, sf⟩)
        ("title_color") = some (JsonVal.str c)) ∧
    (∀ (t : Option String) (w : Int) (tc : Option String) (sc : Option F32)
      (p : F32) (pw : Option Int) (pc sf : Option String),
      lookupField (extract_template_fields ⟨t, some w, tc, sc, p, pw, pc, sf⟩)
        ("title_width") = some (JsonVal.int w)) ∧
    (∀ (t : Option String) (tw : Option Int) (tc : Option String) (sc : Option F32)
      (p : F32) (w : Int) (pc sf : Option String),
      lookupField (extract_template_fields ⟨t, tw, tc, sc, p, some w, pc, sf⟩)
        ("progress_width") = some (JsonVal.int w)) ∧
    (∀ (t : Option String) (tw : Option Int) (tc : Option String) (sc : Option F32)
      (p : F32) (pw : Option Int) (c : String) (sf : Option String),
      lookupField (extract_template_fields ⟨t, tw, tc, sc, p, pw, some c, sf⟩)
        ("progress_color") = some (JsonVal.str c)) ∧
    (∀ (t : Option String) (tw : Option Int) (tc : Option String) (sc : Option F32)
      (p : F32) (pw : Option Int) (pc : Option String) (x : String),
      lookupField (extract_template_fields ⟨t, tw, tc, sc, p, pw, pc, some x⟩)
        ("suffix") = some (JsonVal.str x)) := by
  refine ⟨?_, ?_, ?_, ?_, ?_⟩ <;> intros t tw _ _ _ _ _ _ <;>
    cases t <;> cases tw <;> rfl

/-- Claim C4: for every request without a title and with neither width
supplied, the derived title_width is 0, the derived progress_width is 90,
and the context holds no title field. -/
theorem no_title_law (tc : Option String) (sc : Option F32) (p : F32)
    (pc sf : Option String) :
    lookupField (extract_template_fields ⟨none, none, tc, sc, p, none, pc, sf⟩)
      ("title_width") = some (JsonVal.int 0) ∧
    lookupField (extract_template_fields ⟨none, none, tc, sc, p, none, pc, sf⟩)
      ("progress_width") = some (JsonVal.int 90) ∧
    lookupField (extract_template_fields ⟨none, none, tc, sc, p, none, pc, sf⟩)
      ("title") = none :=
  ⟨rfl, rfl, rfl⟩

/-- Claim C5: for every request omitting progress_color, the derived
progress_color is the color policy applied to the final progress and the
final scale, the supplied scale when present and 100 otherwise. -/
theorem color_policy_default_law (t : Option String) (tw : Option Int)
    (tc : Option String) (sc : Option F32) (p : F32) (pw : Option Int)
    (sf : Option String) :
    lookupField (extract_template_fields ⟨t, tw, tc, sc, p, pw, none, sf⟩)
      ("progress_color")
      = some (JsonVal.str (get_progress_color p (sc.getD (F32.fin 100)))) := by
  cases t <;> cases tw <;> rfl

/-- Claim C8: with progress 50 and scale 0 the division yields positive
infinity and both threshold comparisons are false, so the color policy
deterministically returns the green high-band hue; with progress 0 the
ratio is NaN, comparisons against it are false, and the high band is again
returned; the same band reaches the derived context of the request. -/
theorem nonfinite_ratio_band :
    fdiv (F32.fin 50) (F32.fin 0) = F32.inf ∧
    get_progress_color (F32.fin 50) (F32.fin 0) = "#5cb85c" ∧
    fdiv (F32.fin 0) (F32.fin 0) = F32.nan ∧
    get_progress_color (F32.fin 0) (F32.fin 0) = "#5cb85c" ∧
    lookupField
      (extract_template_fields
        ⟨none, none, none, some (F32.fin 0), F32.fin 50, none, none, none⟩)
      ("progress_color") = some (JsonVal.str ("#5cb85c")) := by
  refine ⟨?_, ?_, ?_, ?_, ?_⟩ <;> decide

/-- Claim C9: the field derivation is a pure total function: for every
combination of present and absent optional fields and every numeric value
it returns a render context, with no failure path. -/
theorem derive_total (q : QueryArgs) :
    ∃ ctx : RenderContext, extract_template_fields q = ctx :=
  ⟨_, rfl⟩

/-- Claim C7: for every query, the derived context contains title_color,
title_width, scale, progress, progress_width, progress_color and suffix,
and contains title exactly when the query supplied one. -/
theorem context_complete :
    (∀ (tw : Option Int) (tc : Option String) (sc : Option F32) (p : F32)
      (pw : Option Int) (pc sf : Option String),
      (lookupField (extract_template_fields ⟨none, tw, tc, sc, p, pw, pc, sf⟩)
        ("title_color")).isSome = true ∧
      (lookupField (extract_template_fields ⟨none, tw, tc, sc, p, pw, pc, sf⟩)
        ("title_width")).isSome = true ∧
      (lookupField (extract_template_fields ⟨none, tw, tc, sc, p, pw, pc, sf⟩)
        ("scale")).isSome = true ∧
      (lookupField (extract_template_fields ⟨none, tw, tc, sc, p, pw, pc, sf⟩)
        ("progress")).isSome = true ∧
      (lookupField (extract_template_fields ⟨none, tw, tc, sc, p, pw, pc, sf⟩)
        ("progress_width")).isSome = true ∧
      (lookupField (extract_template_fields ⟨none, tw, tc, sc, p, pw, pc, sf⟩)
        ("progress_color")).isSome = true ∧
      (lookupField (extract_template_fields ⟨none, tw, tc, sc, p, pw, pc, sf⟩)
        ("suffix")).isSome = true ∧
      lookupField (extract_template_fields ⟨none, tw, tc, sc, p, pw, pc, sf⟩)
        ("title") = none) ∧
    (∀ (tt : String) (tw : Option Int) (tc : Option String) (sc : Option F32)
      (p : F32) (pw : Option Int) (pc sf : Option String),
      (lookupField (extract_template_fields ⟨some tt, tw, tc, sc, p, pw, pc, sf⟩)
        ("title_color")).isSome = true ∧
      (lookupField (extract_template_fields ⟨some tt, tw, tc, sc, p, pw, pc, sf⟩)
        ("title_width")).isSome = true ∧
      (lookupField (extract_template_fields ⟨some tt, tw, tc, sc, p, pw, pc, sf⟩)
        ("scale")).isSome = true ∧
      (lookupField (extract_template_fields ⟨some tt, tw, tc, sc, p, pw, pc, sf⟩)
        ("progress")).isSome = true ∧
      (lookupField (extract_template_fields ⟨some tt, tw, tc, sc, p, pw, pc, sf⟩)
        ("progress_width")).isSome = true ∧
      (lookupField (extract_template_fields ⟨some tt, tw, tc, sc, p, pw, pc, sf⟩)
        ("progress_color")).isSome = true ∧
      (lookupField (extract_template_fields ⟨some tt, tw, tc, sc, p, pw, pc, sf⟩)
        ("suffix")).isSome = true ∧
      lookupField (extract_template_fields ⟨some tt, tw, tc, sc, p, pw, pc, sf⟩)
        ("title") = some (JsonVal.str tt)) := by
  refine ⟨?_, ?_⟩ <;> intros <;>
    rename_i tw _ _ _ _ _ _ <;> cases tw <;>
    exact ⟨rfl, rfl, rfl, rfl, rfl, rfl, rfl, rfl⟩

/-- Helper: the pipeline answers 400 with the plain-text content type
whenever the query fails to parse. -/
theorem serve_of_no_ok (raw : List (String × String))
    (h : ∀ a, parseQuery raw ≠ Except.ok a) :
    serve raw = ⟨400, "text/plain; charset=utf-8"⟩ := by
  unfold serve
  cases hp : parseQuery raw with
  | error e => rfl
  | ok a => exact absurd hp (h a)

/-- Helper: a successfully parsed optional float field is numeric whenever
it is present. -/
theorem parseOptNum_ok_inv (raw : List (String × String)) (key : String)
    (o : Option F32) (h : parseOptNum raw key = Except.ok o) :
    ∀ s, queryParam raw key = some s → ∃ v, parseF32 s = some v := by
  intro s hs
  unfold parseOptNum at h
  simp only [hs] at h
  cases hv : parseF32 s <;> simp only [hv, reduceCtorEq] at h
  exact ⟨_, rfl⟩

/-- Helper: a successfully parsed optional integer field is numeric
whenever it is present. -/
theorem parseOptInt_ok_inv (raw : List (String × String)) (key : String)
    (o : Option Int) (h : parseOptInt raw key = Except.ok o) :
    ∀ s, queryParam raw key = some s → ∃ v, parseI32 s = some v := by
  intro s hs
  unfold parseOptInt at h
  simp only [hs] at h
  cases hv : parseI32 s <;> simp only [hv, reduceCtorEq] at h
  exact ⟨_, rfl⟩

/-- Helper: a successful parse implies that progress was present and
numeric and that every present numeric field was numeric. -/
theorem parseQuery_ok_inv (raw : List (String × String)) (a : QueryArgs)
    (h : parseQuery raw = Except.ok a) :
    (∃ s, queryParam raw ("progress") = some s ∧ parseF32 s = some a.progress) ∧
    (∀ s, queryParam raw ("scale") = some s → ∃ v, parseF32 s = some v) ∧
    (∀ s, queryParam raw ("title_width") = some s → ∃ v, parseI32 s = some v) ∧
    (∀ s, queryParam raw ("progress_width") = some s → ∃ v, parseI32 s = some v) := by
  unfold parseQuery at h
  cases hp : queryParam raw ("progress") <;> simp only [hp, reduceCtorEq] at h
  case some ps =>
  cases hf : parseF32 ps <;> simp only [hf, reduceCtorEq] at h
  case some p =>
  cases htw : parseOptInt raw ("title_width") <;> simp only [htw, reduceCtorEq] at h
  case ok tw =>
  cases hsc : parseOptNum raw ("scale") <;> simp only [hsc, reduceCtorEq] at h
  case ok sc =>
  cases hpw : parseOptInt raw ("progress_width") <;> simp only [hpw, reduceCtorEq] at h
  case ok pw =>
  have ha : a.progress = p := by cases h; rfl
  exact ⟨⟨ps, rfl, by rw [ha]; exact hf⟩,
    parseOptNum_ok_inv raw _ sc hsc,
    parseOptInt_ok_inv raw _ tw htw,
    parseOptInt_ok_inv raw _ pw hpw⟩

/-- Claim C6: a request that omits progress, or supplies a non-numeric
value for progress, scale, title_width or progress_width, is answered with
status 400 and the plain-text content type; and a successful parse always
carries a numeric progress value obtained from a present progress
parameter. -/
theorem required_field_law :
    (∀ raw : List (String × String), queryParam raw ("progress") = none →
      serve raw = ⟨400, "text/plain; charset=utf-8"⟩) ∧
    (∀ (raw : List (String × String)) (s : String),
      queryParam raw ("progress") = some s → parseF32 s = none →
      serve raw = ⟨400, "text/plain; charset=utf-8"⟩) ∧
    (∀ (raw : List (String × String)) (s : String),
      queryParam raw ("scale") = some s → parseF32 s = none →
      serve raw = ⟨400, "text/plain; charset=utf-8"⟩) ∧
    (∀ (raw : List (String × String)) (s : String),
      queryParam raw ("title_width") = some s → parseI32 s = none →
      serve raw = ⟨400, "text/plain; charset=utf-8"⟩) ∧
    (∀ (raw : List (String × String)) (s : String),
      queryParam raw ("progress_width") = some s → parseI32 s = none →
      serve raw = ⟨400, "text/plain; charset=utf-8"⟩) ∧
    (∀ (raw : List (String × String)) (a : QueryArgs),
      parseQuery raw = Except.ok a →
      ∃ s, queryParam raw ("progress") = some s ∧ parseF32 s = some a.progress) := by
  refine ⟨?_, ?_, ?_, ?_, ?_, fun raw a h => (parseQuery_ok_inv raw a h).1⟩
  · intro raw h
    apply serve_of_no_ok
    intro a hok
    obtain ⟨⟨s, hs, -⟩, -, -, -⟩ := parseQuery_ok_inv raw a hok
    rw [h] at hs
    exact absurd hs (by simp)
  · intro raw s h hv
    apply serve_of_no_ok
    intro a hok
    obtain ⟨⟨s₂, hs₂, hv₂⟩, -, -, -⟩ := parseQuery_ok_inv raw a hok
    rw [h] at hs₂
    injection hs₂ with he
    subst he
    rw [hv] at hv₂
    exact absurd hv₂ (by simp)
  · intro raw s h hv
    apply serve_of_no_ok
    intro a hok
    obtain ⟨-, hsc, -, -⟩ := parseQuery_ok_inv raw a hok
    obtain ⟨v, hv₂⟩ := hsc s h
    rw [hv] at hv₂
    exact absurd hv₂ (by simp)
  · intro raw s h hv
    apply serve_of_no_ok
    intro a hok
    obtain ⟨-, -, htw, -⟩ := parseQuery_ok_inv raw a hok
    obtain ⟨v, hv₂⟩ := htw s h
    rw [hv] at hv₂
    exact absurd hv₂ (by simp)
  · intro raw s h hv
    apply serve_of_no_ok
    intro a hok
    obtain ⟨-, -, -, hpw⟩ := parseQuery_ok_inv raw a hok
    obtain ⟨v, hv₂⟩ := hpw s h
    rw [hv] at hv₂
    exact absurd hv₂ (by simp)

/-- Witness for C6: the empty query omits progress and is answered 400,
and a non-numeric progress value is answered 400. -/
theorem required_field_law_witness :
    serve [] = ⟨400, "text/plain; charset=utf-8"⟩ ∧
    serve [(("progress"), ("abc"))] = ⟨400, "text/plain; charset=utf-8"⟩ :=
  ⟨required_field_law.1 [] rfl,
   required_field_law.2.1 [(("progress"), ("abc"))] ("abc") rfl (by decide)⟩

/-- Helper: on nonnegative rationals, truncation toward zero is the floor. -/
theorem rat_trunc_of_nonneg (q : ℚ) (h : 0 ≤ q) : rat_trunc q = ⌊q⌋ := by
  rw [rat_trunc, Rat.floor_def]
  exact Int.tdiv_eq_ediv (Rat.num_nonneg.mpr h) (by positivity)

/-- Helper: on nonpositive rationals, truncation toward zero is the
ceiling. -/
theorem rat_trunc_of_nonpos (q : ℚ) (h : q ≤ 0) : rat_trunc q = ⌈q⌉ := by
  have h₂ : (0 : ℚ) ≤ -q := neg_nonneg.mpr h
  have hfl := rat_trunc_of_nonneg (-q) h₂
  rw [Int.floor_neg] at hfl
  have hneg : rat_trunc (-q) = -(rat_trunc q) := by
    rw [rat_trunc, rat_trunc, Rat.num_neg_eq_neg_num, Rat.den_neg_eq_den,
      Int.neg_tdiv]
  rw [hneg] at hfl
  omega

/-- Claim C10: the single registered filter, named int, converts a float to
an integer by truncation toward zero (the floor on nonnegative values, the
ceiling on nonpositive ones) whenever the truncated value fits in a 32-bit
signed integer; outside that range it saturates to the nearest i32 bound,
infinities saturate likewise, and NaN maps to 0. -/
theorem int_filter_law :
    (∀ q : ℚ, 0 ≤ q → ⌊q⌋ ≤ i32_max → f32_as_i32 (F32.fin q) = ⌊q⌋) ∧
    (∀ q : ℚ, q ≤ 0 → i32_min ≤ ⌈q⌉ → f32_as_i32 (F32.fin q) = ⌈q⌉) ∧
    (∀ q : ℚ, (i32_max : ℚ) < q → f32_as_i32 (F32.fin q) = i32_max) ∧
    (∀ q : ℚ, q < (i32_min : ℚ) → f32_as_i32 (F32.fin q) = i32_min) ∧
    f32_as_i32 F32.inf = i32_max ∧
    f32_as_i32 F32.neginf = i32_min ∧
    f32_as_i32 F32.nan = 0 ∧
    template_filters = [(("int"), f32_as_i32)] := by
  refine ⟨?_, ?_, ?_, ?_, rfl, rfl, rfl, rfl⟩
  · intro q h0 hub
    have hlb : (0 : Int) ≤ ⌊q⌋ := Int.floor_nonneg.mpr h0
    rw [f32_as_i32, rat_trunc_of_nonneg q h0]
    rw [i32_max] at hub
    rw [i32_min, i32_max]
    omega
  · intro q h0 hlb
    have hub : ⌈q⌉ ≤ (0 : Int) := Int.ceil_le.mpr (by exact_mod_cast h0)
    rw [f32_as_i32, rat_trunc_of_nonpos q h0]
    rw [i32_min] at hlb
    rw [i32_min, i32_max]
    omega
  · intro q hq
    have h0 : (0 : ℚ) ≤ q := le_trans (by norm_num [i32_max]) (le_of_lt hq)
    have hfl : i32_max ≤ ⌊q⌋ := Int.le_floor.mpr (le_of_lt hq)
    rw [f32_as_i32, rat_trunc_of_nonneg q h0]
    rw [i32_max] at hfl
    rw [i32_min, i32_max]
    omega
  · intro q hq
    have h0 : q ≤ (0 : ℚ) := le_trans (le_of_lt hq) (by norm_num [i32_min])
    have hcl : ⌈q⌉ ≤ i32_min := Int.ceil_le.mpr (le_of_lt hq)
    rw [f32_as_i32, rat_trunc_of_nonpos q h0]
    rw [i32_min] at hcl
    rw [i32_min, i32_max]
    omega

/-- Witness for C10: the filter truncates 3.5 to 3 and -3.5 to -3. -/
theorem int_filter_law_witness :
    f32_as_i32 (F32.fin (7 / 2)) = 3 ∧ f32_as_i32 (F32.fin (-7 / 2)) = -3 := by
  have hf : (⌊(7 / 2 : ℚ)⌋ : Int) = 3 :=
    Int.floor_eq_iff.mpr ⟨by norm_num, by norm_num⟩
  have hc : (⌈(-7 / 2 : ℚ)⌉ : Int) = -3 :=
    Int.ceil_eq_iff.mpr ⟨by norm_num, by norm_num⟩
  constructor
  · have h := int_filter_law.1 (7 / 2) (by norm_num) (by rw [hf]; norm_num [i32_max])
    rw [hf] at h
    exact h
  · have h := int_filter_law.2.1 (-7 / 2) (by norm_num) (by rw [hc]; norm_num [i32_min])
    rw [hc] at h
    exact h
